import Mathlib

/-!
Verification of the news-scraper extraction core: a shallow embedding of
`src/news_scraper/extractors.py`, `src/news_scraper/sources/tools.py` and
`src/news_scraper/sources/base_scraper.py`, with theorems settling the
specification's claims about them.

Modelling conventions:
* Python `float` scores and rates are modelled as `ℚ`; the code only adds,
  multiplies and compares the fixed constants 0.05..1.0, and every claim is
  about the outcome of comparisons the code itself performs.
* Python strings are modelled as Lean `String` / `List Char`; `str.strip()`
  is modelled with the Unicode whitespace set Python uses.
* Raised exceptions are modelled with explicit outcome types (`Except`,
  dedicated `inductive` outcomes); wall-clock quantities (sleep durations,
  elapsed time, timestamps) are recorded as data where a claim mentions
  them and omitted otherwise.
-/

namespace NewsScraper

/-- Whitespace predicate of Python's `str.strip` / `str.isspace`
(ASCII whitespace, C1 control spaces, and the Unicode space characters). -/
def pyIsSpace (c : Char) : Bool :=
  let n := c.toNat
  (9 ≤ n && n ≤ 13) || n = 32 || (28 ≤ n && n ≤ 31) || n = 0x85 || n = 0xA0 ||
  n = 0x1680 || (0x2000 ≤ n && n ≤ 0x200A) || n = 0x2028 || n = 0x2029 ||
  n = 0x202F || n = 0x205F || n = 0x3000

/-- Python `str.strip()` on a character list: drop whitespace from both
ends (`List.rdropWhile p l` is `reverse (dropWhile p (reverse l))`). -/
def pyStripL (l : List Char) : List Char :=
  (l.dropWhile pyIsSpace).rdropWhile pyIsSpace

/-- Python `str.strip()`. -/
def pyStrip (s : String) : String :=
  ⟨pyStripL s.data⟩

/-!
## `ExtractedContent` (extractors.py lines 18-84)
-/

/-- Model of the `ExtractedContent` dataclass. `Optional[str]` fields are
`Option String` (`some ""` is a present-but-empty string, which Python
treats as falsy). `confidence` is the float the pipeline fills in. -/
structure ExtractedContent where
  title : Option String := none
  text : Option String := none
  authors : List String := []
  date : Option String := none
  description : Option String := none
  image : Option String := none
  language : Option String := none
  tags : List String := []
  source : Option String := none
  extractor : Option String := none
  confidence : ℚ := 0
  html_length : Nat := 0
  text_length : Nat := 0
deriving DecidableEq

/-- `ExtractedContent.is_valid`: title present and non-blank after strip,
text present with stripped length at least `min_text_length` (default 100). -/
def is_valid (c : ExtractedContent) (min_text_length : Nat := 100) : Bool :=
  match c.title, c.text with
  | some t, some x =>
      decide (0 < (pyStrip t).length) && decide (min_text_length ≤ (pyStrip x).length)
  | _, _ => false

/-- Title contribution to `quality_score`: 0.3 when the title is truthy and
its stripped length exceeds 10. -/
def scoreTitle (c : ExtractedContent) : ℚ :=
  match c.title with
  | some t => if t ≠ "" ∧ 10 < (pyStrip t).length then 3/10 else 0
  | none => 0

/-- Text contribution to `quality_score`: 0.4 for stripped length ≥ 500,
else 0.2 for ≥ 100, else 0 (only when the text is truthy). -/
def scoreText (c : ExtractedContent) : ℚ :=
  match c.text with
  | some t =>
      if t ≠ "" then
        if 500 ≤ (pyStrip t).length then 2/5
        else if 100 ≤ (pyStrip t).length then 1/5
        else 0
      else 0
  | none => 0

/-- Date contribution to `quality_score`: 0.1 when the date is truthy. -/
def scoreDate (c : ExtractedContent) : ℚ :=
  match c.date with
  | some d => if d ≠ "" then 1/10 else 0
  | none => 0

/-- Authors contribution to `quality_score`: 0.1 when the list is non-empty
(the code's `self.authors and len(self.authors) > 0`). -/
def scoreAuthors (c : ExtractedContent) : ℚ :=
  if c.authors ≠ [] then 1/10 else 0

/-- Description contribution to `quality_score`: 0.05 when truthy. -/
def scoreDescription (c : ExtractedContent) : ℚ :=
  match c.description with
  | some d => if d ≠ "" then 1/20 else 0
  | none => 0

/-- Image contribution to `quality_score`: 0.05 when truthy. -/
def scoreImage (c : ExtractedContent) : ℚ :=
  match c.image with
  | some i => if i ≠ "" then 1/20 else 0
  | none => 0

/-- `ExtractedContent.quality_score`: the weighted sum of the six field
contributions, capped at 1.0 by the final `min(score, 1.0)`. -/
def quality_score (c : ExtractedContent) : ℚ :=
  min (scoreTitle c + scoreText c + scoreDate c + scoreAuthors c +
       scoreDescription c + scoreImage c) 1

/-!
## BeautifulSoupExtractor title selection (extractors.py lines 233-240)

The generic structural extractor picks the title by looping over the
selectors `['h1', 'meta[property="og:title"]', 'meta[name="twitter:title"]',
'title']` in that order, assigning `title` whenever the element exists and
breaking as soon as the assigned value is truthy.  We model the document by
what each of the four selectors would yield: `none` when `select_one` finds
no element (an element whose extracted value is Python `None` behaves
identically in this routine and is modelled the same way), `some s` when it
finds one whose extracted text/content is `s`.
-/

/-- Document abstraction for the title-selection loop: the values the four
title selectors of `BeautifulSoupExtractor.extract` would produce. -/
structure BsDoc where
  h1 : Option String
  ogTitle : Option String
  twitterTitle : Option String
  titleTag : Option String
deriving DecidableEq

/-- The title-selection loop body: `title` starts as the accumulator, each
present element overwrites it, and a truthy value breaks the loop. -/
def bsTitleLoop : Option String → List (Option String) → Option String
  | acc, [] => acc
  | acc, none :: rest => bsTitleLoop acc rest
  | _, some t :: rest => if t ≠ "" then some t else bsTitleLoop (some t) rest

/-- Title chosen by `BeautifulSoupExtractor.extract`: the loop over the
selector values in source order `h1`, `og:title`, `twitter:title`, `title`. -/
def bsTitle (doc : BsDoc) : Option String :=
  bsTitleLoop none [doc.h1, doc.ogTitle, doc.twitterTitle, doc.titleTag]

/-- A selector slot that cannot win the loop: absent, or present but empty. -/
def bsBlank (o : Option String) : Prop :=
  o = none ∨ o = some ""

/-!
## Theorems for C9 and C6
-/

/-- Claim C9: `quality_score` is monotonic in field completeness — setting a
previously-absent date, appending an author, setting a description, or
setting an image never decreases the score, and the score is capped at 1. -/
theorem quality_score_monotone_capped (c : ExtractedContent) (d a de im : String) :
    quality_score { c with date := none } ≤ quality_score { c with date := some d } ∧
    quality_score c ≤ quality_score { c with authors := c.authors ++ [a] } ∧
    quality_score { c with description := none } ≤
      quality_score { c with description := some de } ∧
    quality_score { c with image := none } ≤ quality_score { c with image := some im } ∧
    quality_score c ≤ 1 := by
  refine ⟨?_, ?_, ?_, ?_, min_le_right _ _⟩ <;>
    · unfold quality_score scoreTitle scoreText scoreDate scoreAuthors
        scoreDescription scoreImage
      cases c with
      | mk title text authors date description image _ _ _ _ _ _ _ =>
        simp only
        apply min_le_min _ le_rfl
        gcongr <;> split_ifs <;> simp_all

/-- Claim C6 counterexample: a document where `h1`, `og:title` and `<title>`
all disagree.  The code picks the `<h1>` text, not the `og:title` value the
claim says should win. -/
theorem bsTitle_h1_beats_ogTitle :
    bsTitle ⟨some "H1 headline", some "OG headline", some "TW headline",
             some "Title-tag headline"⟩ = some "H1 headline" ∧
    some "H1 headline" ≠ (some "OG headline" : Option String) := by
  constructor
  · rfl
  · decide

/-- Claim C6 (amended): the actual priority order of the title sources in
`BeautifulSoupExtractor.extract` is first `<h1>`, then `og:title`, then
`twitter:title`, then `<title>`: a non-empty value at a slot wins whenever
every earlier slot is absent or empty. -/
theorem bsTitle_priority (doc : BsDoc) :
    (∀ t, doc.h1 = some t → t ≠ "" → bsTitle doc = some t) ∧
    (∀ t, bsBlank doc.h1 → doc.ogTitle = some t → t ≠ "" → bsTitle doc = some t) ∧
    (∀ t, bsBlank doc.h1 → bsBlank doc.ogTitle → doc.twitterTitle = some t →
      t ≠ "" → bsTitle doc = some t) ∧
    (∀ t, bsBlank doc.h1 → bsBlank doc.ogTitle → bsBlank doc.twitterTitle →
      doc.titleTag = some t → t ≠ "" → bsTitle doc = some t) := by
  obtain ⟨h1, og, tw, tt⟩ := doc
  refine ⟨?_, ?_, ?_, ?_⟩
  · rintro t rfl ht
    simp [bsTitle, bsTitleLoop, ht]
  · rintro t hb rfl ht
    rcases hb with rfl | rfl <;> simp [bsTitle, bsTitleLoop, ht]
  · rintro t hb1 hb2 rfl ht
    rcases hb1 with rfl | rfl <;> rcases hb2 with rfl | rfl <;>
      simp [bsTitle, bsTitleLoop, ht]
  · rintro t hb1 hb2 hb3 rfl ht
    rcases hb1 with rfl | rfl <;> rcases hb2 with rfl | rfl <;>
      rcases hb3 with rfl | rfl <;> simp [bsTitle, bsTitleLoop, ht]

theorem bsTitle_priority_witness :
    bsTitle ⟨some "Fed holds rates", some "OG headline", none, none⟩ =
      some "Fed holds rates" :=
  (bsTitle_priority ⟨some "Fed holds rates", some "OG headline", none, none⟩).1
    "Fed holds rates" rfl (by decide)

/-!
## ExtractionPipeline (extractors.py lines 448-568)

An extractor is modelled by what its `extract(html, url)` returns.  The
pipeline wraps every call in `try/except` and treats a raised exception the
same as a `None` result (log and continue), so an extractor that raises is
modelled as one returning `none`.
-/

/-- An extraction strategy: `extract(html, url) -> ExtractedContent | None`,
with an internal exception modelled as `none` (the pipeline catches it and
continues either way). -/
abbrev Extractor := String → String → Option ExtractedContent

/-- The loop of `ExtractionPipeline.extract`: track the best valid result
and its score, set `confidence` on each valid result, and break out as soon
as a score reaches 0.8. -/
def extractLoop (html url : String) :
    List Extractor → Option ExtractedContent → ℚ → Option ExtractedContent × ℚ
  | [], best, bestScore => (best, bestScore)
  | e :: rest, best, bestScore =>
    match e html url with
    | none => extractLoop html url rest best bestScore
    | some r =>
      if is_valid r then
        let score := quality_score r
        let r1 := { r with confidence := score }
        let best1 := if bestScore < score then some r1 else best
        let bestScore1 := if bestScore < score then score else bestScore
        if 4/5 ≤ score then (best1, bestScore1)
        else extractLoop html url rest best1 bestScore1
      else extractLoop html url rest best bestScore

/-- `ExtractionPipeline.extract`: run the loop, then return the best result
only when its score reaches `min_quality` (default 0.3). -/
def pipeline_extract (extractors : List Extractor) (html url : String)
    (min_quality : ℚ := 3/10) : Option ExtractedContent :=
  match extractLoop html url extractors none 0 with
  | (some r, bestScore) => if min_quality ≤ bestScore then some r else none
  | (none, _) => none

theorem quality_score_set_confidence (r : ExtractedContent) (x : ℚ) :
    quality_score { r with confidence := x } = quality_score r := rfl

/-- Loop invariant: whenever the loop yields a `some` best result, the
returned best score is that result's quality score, and the result's
`confidence` field was set to that score. -/
theorem extractLoop_some (html url : String) :
    ∀ (es : List Extractor) (best : Option ExtractedContent) (bestScore s : ℚ)
      (r : ExtractedContent),
      (∀ r0, best = some r0 →
        bestScore = quality_score r0 ∧ r0.confidence = quality_score r0) →
      extractLoop html url es best bestScore = (some r, s) →
      s = quality_score r ∧ r.confidence = quality_score r := by
  intro es
  induction es with
  | nil =>
    intro best bestScore s r hinv h
    simp only [extractLoop, Prod.mk.injEq] at h
    obtain ⟨h1, h2⟩ := h
    obtain ⟨h3, h4⟩ := hinv r h1
    exact ⟨h2 ▸ h3, h4⟩
  | cons e rest ih =>
    intro best bestScore s r hinv h
    simp only [extractLoop] at h
    cases he : e html url with
    | none =>
      rw [he] at h
      exact ih best bestScore s r hinv h
    | some r0 =>
      rw [he] at h
      by_cases hv : is_valid r0
      · simp only [hv, if_true] at h
        by_cases hlt : bestScore < quality_score r0
        · simp only [hlt, if_true] at h
          by_cases h8 : (4:ℚ)/5 ≤ quality_score r0
          · simp only [h8, if_true, Prod.mk.injEq] at h
            obtain ⟨h1, h2⟩ := h
            cases h1
            refine ⟨h2 ▸ ?_, ?_⟩ <;>
              simp [quality_score_set_confidence]
          · simp only [h8, if_false] at h
            refine ih _ _ _ _ ?_ h
            rintro r1 ⟨rfl⟩
            simp [quality_score_set_confidence]
        · simp only [hlt, if_false] at h
          by_cases h8 : (4:ℚ)/5 ≤ quality_score r0
          · simp only [h8, if_true, Prod.mk.injEq] at h
            obtain ⟨h1, h2⟩ := h
            obtain ⟨h3, h4⟩ := hinv r h1
            exact ⟨h2 ▸ h3, h4⟩
          · simp only [h8, if_false] at h
            exact ih _ _ _ _ hinv h
      · simp only [hv, if_false] at h
        exact ih _ _ _ _ hinv h

/-- Claim C1: `ExtractionPipeline.extract` either returns `None` or a result
whose quality score is at least `min_quality`, with `confidence` equal to
that score — for every extractor list, HTML, URL and threshold. -/
theorem pipeline_extract_quality (extractors : List Extractor) (html url : String)
    (minQ : ℚ) (r : ExtractedContent)
    (h : pipeline_extract extractors html url minQ = some r) :
    minQ ≤ quality_score r ∧ r.confidence = quality_score r := by
  unfold pipeline_extract at h
  rcases hl : extractLoop html url extractors none 0 with ⟨best, bestScore⟩
  rw [hl] at h
  cases best with
  | none => simp at h
  | some r0 =>
    by_cases hq : minQ ≤ bestScore
    · simp only [hq, if_true, Option.some.injEq] at h
      subst h
      obtain ⟨h1, h2⟩ := extractLoop_some html url extractors none 0 bestScore r0
        (by simp) hl
      exact ⟨h1 ▸ hq, h2⟩
    · simp [hq] at h

/-- Sample body text of stripped length 120 (≥ 100 and < 500). -/
def sampleText : String := ⟨List.replicate 120 'x'⟩

/-- A content record scoring exactly 0.8: substantial title (0.3), text of
length 120 (0.2), date (0.1), author (0.1), description (0.05), image
(0.05). -/
def highContent : ExtractedContent :=
  { title := some "A sufficiently long headline"
    text := some sampleText
    date := some "2024-01-02"
    authors := ["Ana"]
    description := some "Rates held steady"
    image := some "https://example.com/a.png" }

theorem is_valid_highContent : is_valid highContent = true := by decide

theorem scoreTitle_highContent : scoreTitle highContent = 3/10 := by
  simp only [scoreTitle, highContent]
  rw [if_pos ⟨by decide, by decide⟩]

theorem scoreText_highContent : scoreText highContent = 1/5 := by
  simp only [scoreText, highContent]
  rw [if_pos (show sampleText ≠ "" by decide),
    if_neg (show ¬ (500 ≤ (pyStrip sampleText).length) by decide),
    if_pos (show 100 ≤ (pyStrip sampleText).length by decide)]

theorem scoreDate_highContent : scoreDate highContent = 1/10 := by
  simp only [scoreDate, highContent]
  rw [if_pos (by decide)]

theorem scoreAuthors_highContent : scoreAuthors highContent = 1/10 := by
  simp only [scoreAuthors, highContent]
  rw [if_pos (by decide)]

theorem scoreDescription_highContent : scoreDescription highContent = 1/20 := by
  simp only [scoreDescription, highContent]
  rw [if_pos (by decide)]

theorem scoreImage_highContent : scoreImage highContent = 1/20 := by
  simp only [scoreImage, highContent]
  rw [if_pos (by decide)]

theorem quality_score_highContent : quality_score highContent = 4/5 := by
  rw [quality_score, scoreTitle_highContent, scoreText_highContent,
    scoreDate_highContent, scoreAuthors_highContent, scoreDescription_highContent,
    scoreImage_highContent]
  norm_num [min_def]

/-- Evaluation of the one-extractor pipeline on `highContent` at an
arbitrary threshold: the loop early-exits at score 0.8, then the final
threshold check decides between the result and `None`. -/
theorem pipeline_high_eval (minQ : ℚ) :
    pipeline_extract [fun _ _ => some highContent] "<html>" "http://example.com/a"
      minQ =
      if minQ ≤ 4/5 then some { highContent with confidence := 4/5 } else none := by
  simp only [pipeline_extract, extractLoop, is_valid_highContent,
    quality_score_highContent]
  norm_num

theorem pipeline_extract_quality_witness :
    (3:ℚ)/10 ≤ quality_score { highContent with confidence := 4/5 } ∧
    ({ highContent with confidence := 4/5 } : ExtractedContent).confidence =
      quality_score { highContent with confidence := 4/5 } :=
  pipeline_extract_quality [fun _ _ => some highContent] "<html>"
    "http://example.com/a" (3/10) { highContent with confidence := 4/5 }
    (by rw [pipeline_high_eval]; norm_num)

/-- Claim C4 counterexample: a single extractor produces a valid result of
quality score exactly 0.8, yet with `min_quality = 0.9` the pipeline returns
`None` rather than that result — the early exit does not bypass the final
`min_quality` check. -/
theorem pipeline_highscore_rejected :
    is_valid highContent = true ∧ quality_score highContent = 4/5 ∧
    pipeline_extract [fun _ _ => some highContent] "<html>"
      "http://example.com/a" (9/10) = none := by
  refine ⟨is_valid_highContent, quality_score_highContent, ?_⟩
  rw [pipeline_high_eval]
  norm_num

/-- Early-exit loop lemma: as long as every earlier extractor only yields
valid results scoring below 0.8, the first valid result scoring at least
0.8 terminates the loop (the remaining extractors are irrelevant) with that
result as best. -/
theorem extractLoop_early (html url : String) (e : Extractor) (r : ExtractedContent)
    (he : e html url = some r) (hv : is_valid r = true)
    (hs : (4:ℚ)/5 ≤ quality_score r) :
    ∀ (pre post : List Extractor) (best : Option ExtractedContent) (bestScore : ℚ),
      (∀ e1 ∈ pre, ∀ r1, e1 html url = some r1 → is_valid r1 = true →
        quality_score r1 < 4/5) →
      bestScore < 4/5 →
      extractLoop html url (pre ++ e :: post) best bestScore =
        (some { r with confidence := quality_score r }, quality_score r) := by
  intro pre
  induction pre with
  | nil =>
    intro post best bestScore _ hlt
    have hlt2 : bestScore < quality_score r := lt_of_lt_of_le hlt hs
    simp [extractLoop, he, hv, hlt2, hs]
  | cons e0 pre ih =>
    intro post best bestScore hpre hlt
    simp only [List.cons_append, extractLoop]
    cases he0 : e0 html url with
    | none =>
      exact ih post best bestScore (fun e1 h1 => hpre e1 (List.mem_cons_of_mem _ h1)) hlt
    | some r0 =>
      by_cases hv0 : is_valid r0
      · have hs0 : quality_score r0 < 4/5 :=
          hpre e0 (List.mem_cons_self _ _) r0 he0 hv0
        have h8 : ¬ ((4:ℚ)/5 ≤ quality_score r0) := not_le.mpr hs0
        simp only [hv0, if_true, h8, if_false]
        by_cases hb : bestScore < quality_score r0
        · simp only [hb, if_true]
          exact ih post _ _ (fun e1 h1 => hpre e1 (List.mem_cons_of_mem _ h1)) hs0
        · simp only [hb, if_false]
          exact ih post _ _ (fun e1 h1 => hpre e1 (List.mem_cons_of_mem _ h1)) hlt
      · simp only [hv0, if_false]
        exact ih post best bestScore (fun e1 h1 => hpre e1 (List.mem_cons_of_mem _ h1)) hlt

/-- Claim C4 (amended): when the extractors before `e` never produce a valid
result scoring at least 0.8 and `e` produces a valid result `r` with
`quality_score r ≥ 0.8`, the pipeline stops at `e` — the result does not
depend on the extractors after `e` — and returns `r` (with its confidence
set) *provided* `min_quality ≤ 0.8`; with `min_quality` above the achieved
score the pipeline still stops early but returns `None`. -/
theorem pipeline_early_exit (pre : List Extractor) (e : Extractor)
    (html url : String) (minQ : ℚ) (r : ExtractedContent)
    (hpre : ∀ e1 ∈ pre, ∀ r1, e1 html url = some r1 → is_valid r1 = true →
      quality_score r1 < 4/5)
    (he : e html url = some r) (hv : is_valid r = true)
    (hs : (4:ℚ)/5 ≤ quality_score r) (hmq : minQ ≤ 4/5) (post : List Extractor) :
    pipeline_extract (pre ++ e :: post) html url minQ =
      some { r with confidence := quality_score r } := by
  unfold pipeline_extract
  rw [extractLoop_early html url e r he hv hs pre post none 0 hpre (by norm_num)]
  simp [le_trans hmq hs]

theorem pipeline_early_exit_witness :
    pipeline_extract [fun _ _ => some highContent] "<html>" "http://example.com/a"
      (3/10) = some { highContent with confidence := quality_score highContent } :=
  pipeline_early_exit [] (fun _ _ => some highContent) "<html>"
    "http://example.com/a" (3/10) highContent (by simp) rfl is_valid_highContent
    (by rw [quality_score_highContent]) (by norm_num) []

/-!
## RetryStrategy (tools.py lines 169-219)

`execute` is modelled by the behaviour of the retried function per call
number (`f : Nat → Except String A`, 1-based) and the stream of jitter
factors `random.uniform(0.5, 1.5)` drawn on each failed attempt
(`jit : Nat → ℚ`, indexed by the failing attempt).  The result carries the
outcome and the list of slept delays in order.
-/

/-- `RetryConfig` dataclass with its defaults. -/
structure RetryConfig where
  max_attempts : Nat := 3
  initial_delay : ℚ := 1
  max_delay : ℚ := 60
  exponential_base : ℚ := 2
  jitter : Bool := true

/-- Outcome of `RetryStrategy.execute`: the function's value, the re-raised
last exception, or the degenerate `raise last_exception` with
`last_exception = None` reached only when `max_attempts = 0`. -/
inductive RetryOutcome (A : Type) where
  | success (a : A)
  | failure (e : String)
  | raisedNone
deriving DecidableEq

/-- The attempt loop of `RetryStrategy.execute`.  The first argument is the
number of attempts left (the loop runs `attempt = 1 .. max_attempts`);
`delay` is the running pre-jitter delay, multiplied by `exponential_base`
after each sleep; `sleeps` accumulates the slept delays. -/
def retryGo (cfg : RetryConfig) (f : Nat → Except String A) (jit : Nat → ℚ) :
    Nat → Nat → ℚ → List ℚ → RetryOutcome A × List ℚ
  | 0, _, _, sleeps => (.raisedNone, sleeps)
  | r+1, attempt, delay, sleeps =>
    match f attempt with
    | .ok a => (.success a, sleeps)
    | .error e =>
      if r = 0 then (.failure e, sleeps)
      else
        let actual := if cfg.jitter then min (delay * jit attempt) cfg.max_delay
                      else min delay cfg.max_delay
        retryGo cfg f jit r (attempt+1) (delay * cfg.exponential_base)
          (sleeps ++ [actual])

/-- `RetryStrategy.execute`. -/
def retry_execute (cfg : RetryConfig) (f : Nat → Except String A) (jit : Nat → ℚ) :
    RetryOutcome A × List ℚ :=
  retryGo cfg f jit cfg.max_attempts 1 cfg.initial_delay []

/-- The delays slept by `j` consecutive failed attempts starting at
`attempt` with running delay `delay`. -/
def mkDelays (cfg : RetryConfig) (jit : Nat → ℚ) : Nat → Nat → ℚ → List ℚ
  | 0, _, _ => []
  | j+1, attempt, delay =>
      (if cfg.jitter then min (delay * jit attempt) cfg.max_delay
       else min delay cfg.max_delay) ::
      mkDelays cfg jit j (attempt+1) (delay * cfg.exponential_base)

theorem mkDelays_length (cfg : RetryConfig) (jit : Nat → ℚ) :
    ∀ (j attempt : Nat) (delay : ℚ), (mkDelays cfg jit j attempt delay).length = j := by
  intro j
  induction j with
  | zero => intro attempt delay; rfl
  | succ j ih => intro attempt delay; simp [mkDelays, ih]

/-- With jitter disabled, base ≥ 1 and a non-negative starting delay, the
slept delays are non-decreasing (the `min`-cap keeps them non-decreasing
too). -/
theorem mkDelays_chain (cfg : RetryConfig) (jit : Nat → ℚ) (hj : cfg.jitter = false)
    (hb : 1 ≤ cfg.exponential_base) :
    ∀ (j attempt : Nat) (delay : ℚ), 0 ≤ delay →
      List.Chain' (· ≤ ·) (mkDelays cfg jit j attempt delay) := by
  intro j
  induction j with
  | zero => intro attempt delay _; simp [mkDelays]
  | succ j ih =>
    intro attempt delay hd
    simp only [mkDelays, hj, Bool.false_eq_true, if_false]
    apply List.Chain'.cons'
    · exact ih (attempt+1) _ (mul_nonneg hd (le_trans zero_le_one hb))
    · intro y hy
      cases j with
      | zero => simp [mkDelays] at hy
      | succ j2 =>
        simp only [mkDelays, hj, Bool.false_eq_true, if_false,
          List.head?_cons, Option.mem_def, Option.some.injEq] at hy
        subst hy
        exact min_le_min (le_mul_of_one_le_right hd hb) le_rfl

/-- Loop lemma: if attempts `attempt .. attempt+j-1` fail and attempt
`attempt+j` (within the remaining budget) succeeds with `a`, the loop
returns `a` and appends exactly the delays of the `j` failures. -/
theorem retryGo_success (cfg : RetryConfig) (f : Nat → Except String A)
    (jit : Nat → ℚ) (a : A) :
    ∀ (j rem attempt : Nat) (delay : ℚ) (sleeps : List ℚ),
      j < rem →
      (∀ i, attempt ≤ i → i < attempt + j → ∃ e, f i = Except.error e) →
      f (attempt + j) = Except.ok a →
      retryGo cfg f jit rem attempt delay sleeps =
        (RetryOutcome.success a, sleeps ++ mkDelays cfg jit j attempt delay) := by
  intro j
  induction j with
  | zero =>
    intro rem attempt delay sleeps hlt herr hok
    obtain ⟨r, rfl⟩ : ∃ r, rem = r + 1 := ⟨rem - 1, by omega⟩
    rw [Nat.add_zero] at hok
    simp [retryGo, hok, mkDelays]
  | succ j ih =>
    intro rem attempt delay sleeps hlt herr hok
    obtain ⟨r, rfl⟩ : ∃ r, rem = r + 1 := ⟨rem - 1, by omega⟩
    obtain ⟨e, he⟩ := herr attempt le_rfl (by omega)
    have hr : r ≠ 0 := by omega
    simp only [retryGo, he, hr, if_false]
    rw [ih r (attempt+1) (delay * cfg.exponential_base) _ (by omega)
      (fun i h1 h2 => herr i (by omega) (by omega))
      (by rw [show attempt + 1 + j = attempt + (j+1) from by omega]; exact hok)]
    simp [mkDelays]

/-- Claim C8 counterexample: with the default config (jitter on), a
function failing exactly twice then succeeding, and jitter factors 1.5 then
0.5 (both within the uniform ±50% range), `execute` succeeds but the slept
delays are [1.5, 1.0] — they *decrease* although the 60-second cap was
never reached. -/
theorem retry_jitter_delays_decrease :
    retry_execute {} (fun n => if n ≤ 2 then .error "boom" else .ok 42)
        (fun n => if n = 1 then 3/2 else 1/2) =
      (RetryOutcome.success 42, [3/2, 1]) ∧
    (1 : ℚ) < 3/2 ∧ (3:ℚ)/2 < 60 := by
  refine ⟨?_, by norm_num, by norm_num⟩
  norm_num [retry_execute, retryGo, min_def]

/-- Claim C8 (amended): for a function that raises on exactly its first `k`
calls (`k < max_attempts`) and succeeds on call `k+1`, `execute` returns
the success value and sleeps exactly `k` times, whatever the jitter draws;
when jitter is disabled (and `exponential_base ≥ 1`,
`initial_delay ≥ 0`) the delays are non-decreasing, the `max_delay` cap
included — with the default jitter enabled the delays need not be
monotone. -/
theorem retry_execute_spec (cfg : RetryConfig) (f : Nat → Except String A)
    (jit : Nat → ℚ) (a : A) (k : Nat)
    (herr : ∀ i, 1 ≤ i → i ≤ k → ∃ e, f i = Except.error e)
    (hok : f (k+1) = Except.ok a) (hk : k < cfg.max_attempts) :
    (retry_execute cfg f jit).1 = RetryOutcome.success a ∧
    (retry_execute cfg f jit).2.length = k ∧
    (cfg.jitter = false → 1 ≤ cfg.exponential_base → 0 ≤ cfg.initial_delay →
      List.Chain' (· ≤ ·) (retry_execute cfg f jit).2) := by
  have hmain := retryGo_success cfg f jit a k cfg.max_attempts 1 cfg.initial_delay []
    hk (fun i h1 h2 => herr i h1 (by omega))
    (by rw [Nat.add_comm]; exact hok)
  rw [retry_execute, hmain]
  refine ⟨rfl, ?_, ?_⟩
  · simp [mkDelays_length]
  · intro hj hb hd
    simpa using mkDelays_chain cfg jit hj hb k 1 cfg.initial_delay hd

theorem retry_execute_spec_witness :
    (retry_execute { jitter := false }
        (fun n => if n = 1 then .error "boom" else .ok 7) (fun _ => 1)).1 =
      RetryOutcome.success 7 ∧
    (retry_execute { jitter := false }
        (fun n => if n = 1 then .error "boom" else .ok 7) (fun _ => 1)).2.length = 1 ∧
    (({ jitter := false } : RetryConfig).jitter = false →
      1 ≤ ({ jitter := false } : RetryConfig).exponential_base →
      0 ≤ ({ jitter := false } : RetryConfig).initial_delay →
      List.Chain' (· ≤ ·)
        (retry_execute { jitter := false }
          (fun n => if n = 1 then .error "boom" else .ok 7) (fun _ => 1)).2) :=
  retry_execute_spec { jitter := false }
    (fun n => if n = 1 then .error "boom" else .ok 7) (fun _ => 1) 7 1
    (fun i h1 h2 => ⟨"boom", by rw [le_antisymm h2 h1]; rfl⟩)
    (by norm_num) (by norm_num)

/-!
## BaseScraper.get_latest_articles (base_scraper.py lines 133-240)

The scraper is modelled by its class configuration and by the behaviour of
the abstract `_collect_urls` per attempt (`collect : Nat → Except String
(List String)`, 0-based attempt index; `Except.error` is a raised
exception).  Wall-clock data (`time_seconds`, `timestamp`) and the
rate-limiter wait are omitted from the metrics model: no claim mentions
them.  Crucially, the `except` branch of a non-final attempt calls
`self.retry_strategy.get_delay(attempt)`, a method `RetryStrategy` does not
define, so that path raises `AttributeError` out of the whole call — this
is modelled by the dedicated `attributeError` outcome.
-/

/-- Class-level configuration of `BaseScraper` with its defaults. -/
structure ScraperConfig where
  MIN_SUCCESS_RATE : ℚ := 1/2
  MAX_RETRIES : Nat := 3
  HAS_PAYWALL : Bool := false

/-- Model of the `ScraperMetrics` dataclass (minus the wall-clock fields
`time_seconds` and `timestamp`). -/
structure ScraperMetrics where
  source_id : String
  category : Option String
  requested : Nat
  collected : Nat
  success_rate : ℚ
  errors : List String
  has_paywall_detected : Bool
  retry_count : Nat
deriving DecidableEq

/-- The error string appended for a failed attempt (0-based index). -/
def mkAttemptError (attempt : Nat) (e : String) : String :=
  "Attempt " ++ toString (attempt + 1) ++ " failed: " ++ e

/-- How the retry loop of `get_latest_articles` ends: normally (with the
final `urls`, `errors` and `retry_count`), or by the `AttributeError`
raised by the undefined `retry_strategy.get_delay` on a failed non-final
attempt. -/
inductive LoopExit where
  | finished (urls : List String) (errors : List String) (retryCount : Nat)
  | attributeError (errors : List String) (retryCount : Nat)
deriving DecidableEq

/-- The `for attempt in range(MAX_RETRIES)` loop: the first argument is the
number of attempts left.  A non-empty result breaks; an empty result is
retried silently; an exception appends an error and, on a non-final
attempt, hits the missing `get_delay` method. -/
def collectLoop (collect : Nat → Except String (List String)) :
    Nat → Nat → List String → List String → Nat → LoopExit
  | 0, _, urls, errors, rc => .finished urls errors rc
  | r+1, attempt, urls, errors, rc =>
    match collect attempt with
    | .ok us =>
      if 0 < us.length then .finished us errors rc
      else collectLoop collect r (attempt+1) us errors rc
    | .error e =>
      if r = 0 then .finished urls (errors ++ [mkAttemptError attempt e]) (attempt+1)
      else .attributeError (errors ++ [mkAttemptError attempt e]) (attempt+1)

/-- Observable outcome of one `get_latest_articles` call. -/
inductive GLAOutcome where
  | returned (urls : List String)
  | insufficientData
  | paywall
  | attributeError
deriving DecidableEq

/-- `BaseScraper.get_latest_articles`, returning its outcome together with
the list of `ScraperMetrics` records appended to `metrics_history` during
the call.  `min_success_rate or self.MIN_SUCCESS_RATE` uses Python
truthiness, so an explicit `0.0` falls back to the class default. -/
def get_latest_articles (cfg : ScraperConfig) (sourceId : String)
    (category : Option String) (collect : Nat → Except String (List String))
    (limit : Nat) (minSuccessRate : Option ℚ) (raiseOnInsufficient : Bool) :
    GLAOutcome × List ScraperMetrics :=
  let minRate := match minSuccessRate with
    | some r => if r = 0 then cfg.MIN_SUCCESS_RATE else r
    | none => cfg.MIN_SUCCESS_RATE
  match collectLoop collect cfg.MAX_RETRIES 0 [] [] 0 with
  | .attributeError _ _ => (.attributeError, [])
  | .finished urls errors rc =>
    let successRate : ℚ := if 0 < limit then (urls.length : ℚ) / (limit : ℚ) else 0
    let metrics : ScraperMetrics :=
      { source_id := sourceId
        category := category
        requested := limit
        collected := urls.length
        success_rate := successRate
        errors := errors
        has_paywall_detected := cfg.HAS_PAYWALL
        retry_count := rc }
    if successRate < minRate then
      if raiseOnInsufficient then
        if cfg.HAS_PAYWALL then (.paywall, [metrics]) else (.insufficientData, [metrics])
      else (.returned urls, [metrics])
    else (.returned urls, [metrics])

/-- Claim C2 (the code bug, evaluated): with the default configuration and
a `_collect_urls` that raises on the first attempt, `get_latest_articles`
propagates the `AttributeError` from the undefined
`RetryStrategy.get_delay` and appends *no* metrics record — refuting
"exactly one metrics record on every path". -/
theorem get_latest_articles_missing_metrics :
    get_latest_articles {} "yahoofinance" none (fun _ => .error "network down")
        20 none false = (GLAOutcome.attributeError, []) ∧
    ([] : List ScraperMetrics).length = 0 := by
  constructor
  · rfl
  · rfl

/-- The ten URLs of the claim C3 scenario. -/
def urls10 : List String :=
  ["u1", "u2", "u3", "u4", "u5", "u6", "u7", "u8", "u9", "u10"]

/-- The metrics record produced by the claim C3 scenario. -/
def scenarioMetrics : ScraperMetrics :=
  { source_id := "s"
    category := none
    requested := 20
    collected := 10
    success_rate := 1/2
    errors := []
    has_paywall_detected := false
    retry_count := 0 }

/-- Claim C3: with `limit = 20`, `min_success_rate = 0.9` and a collector
always returning exactly 10 URLs, the recorded metrics have success rate
0.5; with `raise_on_insufficient = True` the call raises
`InsufficientDataException` with the metrics record still appended; with
the default `False` it returns the 10 URLs (plus the same record). -/
theorem scraper_insufficient_scenario :
    get_latest_articles {} "s" none (fun _ => .ok urls10) 20 (some (9/10)) true =
      (GLAOutcome.insufficientData, [scenarioMetrics]) ∧
    get_latest_articles {} "s" none (fun _ => .ok urls10) 20 (some (9/10)) false =
      (GLAOutcome.returned urls10, [scenarioMetrics]) ∧
    scenarioMetrics.success_rate = 1/2 := by
  refine ⟨?_, ?_, rfl⟩ <;>
  · simp only [get_latest_articles, collectLoop, urls10]
    norm_num [scenarioMetrics]

/-- A collector that always returns the same list leaves the loop with that
list (non-empty: first-attempt break) or with `[]` (empty result retried
until the attempts run out), never touching `errors`/`retry_count`. -/
theorem collectLoop_const_ok (urls : List String) :
    ∀ (rem attempt : Nat) (errors : List String) (rc : Nat),
      collectLoop (fun _ => Except.ok urls) rem attempt [] errors rc =
        LoopExit.finished urls errors rc ∨
      collectLoop (fun _ => Except.ok urls) rem attempt [] errors rc =
        LoopExit.finished [] errors rc := by
  intro rem
  induction rem with
  | zero => intro attempt errors rc; right; rfl
  | succ r ih =>
    intro attempt errors rc
    by_cases h : 0 < urls.length
    · left; simp [collectLoop, h]
    · have hnil : urls = [] := List.eq_nil_of_length_eq_zero (by omega)
      subst hnil
      simpa [collectLoop] using ih (attempt+1) errors rc

/-- Claim C10: passing `min_success_rate = 0.0` does not disable the
success-rate check — `min_success_rate or self.MIN_SUCCESS_RATE` treats 0.0
as falsy and falls back to the class default 0.5, so with
`raise_on_insufficient = True` a run collecting fewer than half of `limit`
raises `InsufficientDataException` (after appending its metrics record). -/
theorem min_rate_zero_not_disabled (cfg : ScraperConfig) (sid : String)
    (cat : Option String) (urls : List String) (limit : Nat)
    (hcfg1 : cfg.MIN_SUCCESS_RATE = 1/2) (hcfg2 : cfg.HAS_PAYWALL = false)
    (hlt : 2 * urls.length < limit) :
    (get_latest_articles cfg sid cat (fun _ => Except.ok urls) limit
        (some 0) true).1 = GLAOutcome.insufficientData ∧
    (get_latest_articles cfg sid cat (fun _ => Except.ok urls) limit
        (some 0) true).2.length = 1 := by
  have hlim : 0 < limit := by omega
  have hrate : ∀ n : Nat, n ≤ urls.length → ((n : ℚ) / (limit : ℚ)) < 1/2 := by
    intro n hn
    rw [div_lt_iff₀ (by exact_mod_cast hlim)]
    have h2 : (2 * n : ℚ) < limit := by exact_mod_cast (by omega : 2 * n < limit)
    linarith
  unfold get_latest_articles
  rcases collectLoop_const_ok urls cfg.MAX_RETRIES 0 [] 0 with h | h <;>
    rw [h] <;>
    simp only [if_pos hlim, hcfg1, hcfg2, if_pos rfl, if_true] <;>
    rw [if_pos (hrate _ (by simp))] <;>
    simp

theorem min_rate_zero_not_disabled_witness :
    (get_latest_articles {} "s" none (fun _ => Except.ok ["a"]) 3
        (some 0) true).1 = GLAOutcome.insufficientData ∧
    (get_latest_articles {} "s" none (fun _ => Except.ok ["a"]) 3
        (some 0) true).2.length = 1 :=
  min_rate_zero_not_disabled {} "s" none ["a"] 3 rfl rfl (by norm_num)

/-!
## TextCleaner.clean (tools.py lines 374-397)

`clean` performs, in order: `re.sub(r'\n{3,}', '\n\n', ...)` (each maximal
run of ≥ 3 newlines becomes exactly 2), `re.sub(r' {2,}', ' ', ...)` (each
maximal run of ≥ 2 spaces becomes 1), `text.replace('\t', ' ')`, per-line
strip (split on `'\n'`, strip, join), dropping non-blank lines of stripped
length ≤ 3, and a final strip.
-/

/-- Replacement for one maximal newline run of length `n`: `\n{3,}` →
exactly two newlines, shorter runs unchanged. -/
def nlRun (n : Nat) : List Char :=
  List.replicate (if 3 ≤ n then 2 else n) '\n'

/-- `re.sub(r'\n{3,}', '\n\n', ·)`: scan with a count of pending newlines. -/
def collNL : Nat → List Char → List Char
  | n, [] => nlRun n
  | n, c :: rest =>
    if c = '\n' then collNL (n+1) rest else nlRun n ++ c :: collNL 0 rest

/-- Replacement for one maximal space run of length `n`: `' '{2,}` → one
space, shorter runs unchanged. -/
def spRun (n : Nat) : List Char :=
  List.replicate (if 2 ≤ n then 1 else n) ' '

/-- `re.sub(r' {2,}', ' ', ·)`: scan with a count of pending spaces. -/
def collSp : Nat → List Char → List Char
  | n, [] => spRun n
  | n, c :: rest =>
    if c = ' ' then collSp (n+1) rest else spRun n ++ c :: collSp 0 rest

/-- `text.replace('\t', ' ')`. -/
def tabToSpace (l : List Char) : List Char :=
  l.map fun c => if c = '\t' then ' ' else c

/-- Python `text.split('\n')` (keeps empty pieces; `"".split('\n') == [""]`). -/
def splitNL : List Char → List (List Char)
  | [] => [[]]
  | c :: rest =>
    if c = '\n' then [] :: splitNL rest
    else
      match splitNL rest with
      | l :: ls => (c :: l) :: ls
      | [] => [[c]]

/-- The line filter `len(line.strip()) > 3 or line.strip() == ''`. -/
def keepLine (ln : List Char) : Bool :=
  decide (3 < (pyStripL ln).length) || decide (pyStripL ln = [])

/-- `TextCleaner.clean` on a character list (`if not text: return ""` is
the empty-list guard). -/
def cleanL (l : List Char) : List Char :=
  if l = [] then []
  else
    let t3 := tabToSpace (collSp 0 (collNL 0 l))
    let t4 := List.intercalate ['\n'] ((splitNL t3).map pyStripL)
    let t5 := List.intercalate ['\n'] ((splitNL t4).filter keepLine)
    pyStripL t5

/-- `TextCleaner.clean`. -/
def clean (s : String) : String :=
  ⟨cleanL s.data⟩

/-- Claim C7 counterexample: dropping the short line `"xx"` leaves three
consecutive newlines, which only a second pass collapses — so
`clean(clean(x)) ≠ clean(x)`. -/
theorem clean_not_idempotent :
    clean (clean "aaaa\n\nxx\n\nbbbb") ≠ clean "aaaa\n\nxx\n\nbbbb" ∧
    clean "aaaa\n\nxx\n\nbbbb" = "aaaa\n\n\nbbbb" ∧
    clean (clean "aaaa\n\nxx\n\nbbbb") = "aaaa\n\nbbbb" := by
  refine ⟨by decide, by decide, by decide⟩

/-- No two adjacent spaces. -/
abbrev noTwoSpaces (l : List Char) : Prop :=
  List.Chain' (fun a b => ¬(a = ' ' ∧ b = ' ')) l

theorem collNL_eq_self {l : List Char} (h : ∀ c ∈ l, c ≠ '\n') :
    collNL 0 l = l := by
  induction l with
  | nil => rfl
  | cons c rest ih =>
    have hc : c ≠ '\n' := h c (List.mem_cons_self c rest)
    simp only [collNL]
    rw [if_neg hc, ih (fun d hd => h d (List.mem_cons_of_mem _ hd))]
    simp [nlRun]

theorem mem_collSp {c : Char} :
    ∀ {n : Nat} {l : List Char}, c ∈ collSp n l → c = ' ' ∨ c ∈ l := by
  intro n l
  induction l generalizing n with
  | nil =>
    intro h
    left
    simp only [collSp] at h
    exact List.eq_of_mem_replicate (by simpa [spRun] using h)
  | cons d rest ih =>
    intro h
    by_cases hd : d = ' '
    · simp only [collSp] at h
      rw [if_pos hd] at h
      exact (ih h).imp id (List.mem_cons_of_mem d)
    · simp only [collSp] at h
      rw [if_neg hd] at h
      rcases List.mem_append.mp h with h1 | h1
      · left
        exact List.eq_of_mem_replicate (by simpa [spRun] using h1)
      · rcases List.mem_cons.mp h1 with rfl | h2
        · right; exact List.mem_cons_self _ _
        · exact (ih h2).imp id (List.mem_cons_of_mem d)

theorem spRun_eq_nil_or_singleton (n : Nat) : spRun n = [] ∨ spRun n = [' '] := by
  unfold spRun
  rcases Nat.lt_or_ge n 2 with h | h
  · rw [if_neg (by omega)]
    interval_cases n
    · left; rfl
    · right; rfl
  · rw [if_pos h]; right; rfl

theorem collSp_noTwoSpaces : ∀ (l : List Char) (n : Nat), noTwoSpaces (collSp n l) := by
  intro l
  induction l with
  | nil =>
    intro n
    rcases spRun_eq_nil_or_singleton n with h | h <;>
      · simp only [collSp]
        rw [h]
        simp
  | cons d rest ih =>
    intro n
    by_cases hd : d = ' '
    · simp only [collSp]
      rw [if_pos hd]
      exact ih (n+1)
    · simp only [collSp]
      rw [if_neg hd]
      have hchain : List.Chain' (fun a b => ¬(a = ' ' ∧ b = ' '))
          (d :: collSp 0 rest) := by
        refine List.Chain'.cons' (ih 0) ?_
        intro y _ hcon
        exact hd hcon.1
      rcases spRun_eq_nil_or_singleton n with h | h
      · rw [h, List.nil_append]
        exact hchain
      · rw [h]
        exact List.chain'_cons.mpr ⟨fun hcon => hd hcon.2, hchain⟩

theorem collSp_eq_self : ∀ l : List Char, noTwoSpaces l → collSp 0 l = l := by
  intro l
  induction l with
  | nil => intro _; rfl
  | cons c rest ih =>
    intro h
    by_cases hc : c = ' '
    · subst hc
      simp only [collSp, if_pos rfl]
      cases rest with
      | nil => rfl
      | cons d rest2 =>
        have hpair := List.chain'_cons.mp h
        have hd : d ≠ ' ' := fun hd => hpair.1 ⟨rfl, hd⟩
        simp only [collSp]
        rw [if_neg hd]
        have h4 := ih hpair.2
        simp only [collSp] at h4
        rw [if_neg hd] at h4
        have h5 : collSp 0 rest2 = rest2 := by simpa [spRun] using h4
        rw [h5]
        simp [spRun]
    · simp only [collSp]
      rw [if_neg hc]
      have h2 : noTwoSpaces rest := (List.chain'_cons'.mp h).2
      rw [ih h2]
      simp [spRun]

theorem pyStripL_infix_self (l : List Char) : pyStripL l <:+: l := by
  unfold pyStripL
  obtain ⟨t, ht⟩ := List.rdropWhile_prefix pyIsSpace (l.dropWhile pyIsSpace)
  obtain ⟨s, hs⟩ := List.dropWhile_suffix (l := l) pyIsSpace
  refine ⟨s, t, ?_⟩
  rw [List.append_assoc, ht, hs]

theorem mem_pyStripL {c : Char} {l : List Char} (h : c ∈ pyStripL l) : c ∈ l :=
  List.Sublist.subset (List.IsInfix.sublist (pyStripL_infix_self l)) h

theorem noTwoSpaces_pyStripL {l : List Char} (h : noTwoSpaces l) :
    noTwoSpaces (pyStripL l) :=
  List.Chain'.infix h (pyStripL_infix_self l)

theorem pyStripL_idem (l : List Char) : pyStripL (pyStripL l) = pyStripL l := by
  have hdw : ((l.dropWhile pyIsSpace).rdropWhile pyIsSpace).dropWhile pyIsSpace =
      (l.dropWhile pyIsSpace).rdropWhile pyIsSpace := by
    rw [List.dropWhile_eq_self_iff]
    intro hl
    have hpre := List.rdropWhile_prefix pyIsSpace (l.dropWhile pyIsSpace)
    have hl2 : 0 < (l.dropWhile pyIsSpace).length := lt_of_lt_of_le hl hpre.length_le
    have hget := hpre.getElem (n := 0) (by simpa using hl)
    rw [List.get_eq_getElem]
    simp only [hget]
    have hzero := List.dropWhile_get_zero_not pyIsSpace l hl2
    rwa [List.get_eq_getElem] at hzero
  unfold pyStripL
  rw [hdw, List.rdropWhile_idempotent]

theorem tabToSpace_eq_self {l : List Char} (h : ∀ c ∈ l, c ≠ '\t') :
    tabToSpace l = l := by
  induction l with
  | nil => rfl
  | cons c rest ih =>
    simp only [tabToSpace, List.map_cons]
    rw [if_neg (h c (List.mem_cons_self c rest))]
    have ih2 := ih fun d hd => h d (List.mem_cons_of_mem _ hd)
    simp only [tabToSpace] at ih2
    rw [ih2]

theorem splitNL_eq_self {l : List Char} (h : ∀ c ∈ l, c ≠ '\n') :
    splitNL l = [l] := by
  induction l with
  | nil => rfl
  | cons c rest ih =>
    have hc : c ≠ '\n' := h c (List.mem_cons_self c rest)
    simp only [splitNL]
    rw [if_neg hc, ih (fun d hd => h d (List.mem_cons_of_mem _ hd))]

theorem intercalate_singleton (l : List Char) : List.intercalate ['\n'] [l] = l := by
  simp [List.intercalate]

/-- On a tab-free single-line string, `clean` reduces to: collapse space
runs, strip, and replace the result by `""` unless longer than 3. -/
theorem cleanL_single_line {l : List Char}
    (hn : ∀ c ∈ l, c ≠ '\n') (ht : ∀ c ∈ l, c ≠ '\t') :
    cleanL l =
      if 3 < (pyStripL (collSp 0 l)).length then pyStripL (collSp 0 l) else [] := by
  rcases eq_or_ne l [] with rfl | hne
  · rfl
  · simp only [cleanL, if_neg hne]
    rw [collNL_eq_self hn]
    have hn2 : ∀ c ∈ collSp 0 l, c ≠ '\n' := by
      intro c hc
      rcases mem_collSp hc with rfl | h2
      · decide
      · exact hn c h2
    have ht2 : ∀ c ∈ collSp 0 l, c ≠ '\t' := by
      intro c hc
      rcases mem_collSp hc with rfl | h2
      · decide
      · exact ht c h2
    rw [tabToSpace_eq_self ht2, splitNL_eq_self hn2]
    simp only [List.map_cons, List.map_nil]
    rw [intercalate_singleton]
    have hn3 : ∀ c ∈ pyStripL (collSp 0 l), c ≠ '\n' :=
      fun c hc => hn2 c (mem_pyStripL hc)
    rw [splitNL_eq_self hn3]
    rw [List.filter_cons, List.filter_nil]
    have hkeep : keepLine (pyStripL (collSp 0 l)) =
        (decide (3 < (pyStripL (collSp 0 l)).length) ||
          decide (pyStripL (collSp 0 l) = [])) := by
      unfold keepLine
      rw [pyStripL_idem]
    by_cases h3 : 3 < (pyStripL (collSp 0 l)).length
    · rw [if_pos h3]
      rw [if_pos (by rw [hkeep]; simp [h3])]
      rw [intercalate_singleton, pyStripL_idem]
    · rw [if_neg h3]
      by_cases hnil : pyStripL (collSp 0 l) = []
      · rw [if_pos (by rw [hkeep]; simp [hnil])]
        rw [intercalate_singleton, pyStripL_idem, hnil]
      · rw [if_neg (by rw [hkeep]; simp [h3, hnil])]
        rfl

/-- Claim C7 (amended): `clean` is idempotent on strings containing no
newline and no tab; in general a second application can differ (tab
replacement happens after space collapsing, and dropping short lines can
create newline runs of length ≥ 3). -/
theorem clean_idempotent_no_nl_tab (s : String)
    (h : ∀ c ∈ s.data, c ≠ '\n' ∧ c ≠ '\t') :
    clean (clean s) = clean s := by
  unfold clean
  show (⟨cleanL (cleanL s.data)⟩ : String) = ⟨cleanL s.data⟩
  congr 1
  have hn : ∀ c ∈ s.data, c ≠ '\n' := fun c hc => (h c hc).1
  have ht : ∀ c ∈ s.data, c ≠ '\t' := fun c hc => (h c hc).2
  rw [cleanL_single_line hn ht]
  by_cases h3 : 3 < (pyStripL (collSp 0 s.data)).length
  · rw [if_pos h3]
    have hnu : ∀ c ∈ pyStripL (collSp 0 s.data), c ≠ '\n' := by
      intro c hc
      rcases mem_collSp (mem_pyStripL hc) with rfl | h2
      · decide
      · exact hn c h2
    have htu : ∀ c ∈ pyStripL (collSp 0 s.data), c ≠ '\t' := by
      intro c hc
      rcases mem_collSp (mem_pyStripL hc) with rfl | h2
      · decide
      · exact ht c h2
    rw [cleanL_single_line hnu htu]
    rw [collSp_eq_self _ (noTwoSpaces_pyStripL (collSp_noTwoSpaces s.data 0))]
    rw [pyStripL_idem]
    rw [if_pos h3]
  · rw [if_neg h3]
    rfl

theorem clean_idempotent_no_nl_tab_witness :
    clean (clean "hello world") = clean "hello world" :=
  clean_idempotent_no_nl_tab "hello world" (by decide)

/-!
## DateNormalizer.normalize (tools.py lines 429-494)

`normalize` strips the input, returns it *unchanged* when it merely starts
with `\d{4}-\d{2}-\d{2}` (`re.match`, a prefix test), otherwise tries six
`strptime` formats in order (returning `dt.strftime('%Y-%m-%d')` on the
first success), then searches for the Portuguese long form
`(\d{1,2})\s+de\s+(\w+)\s+de\s+(\d{4})`, and finally returns `None`.

The `strptime` field parsers below mirror CPython's `_strptime` regexes
(`%Y` = `\d\d\d\d`, `%m` = `1[0-2]|0[1-9]|[1-9]`,
`%d` = `3[01]|[12]\d|0[1-9]|[1-9]`, `%H` = `2[0-3]|[0-1]\d|\d`,
`%M`/`%S` = `[0-5]\d|\d`), compiled with `IGNORECASE` (so literal `T`/`Z`
also match lowercase) and with a whitespace run in the format matching
`\s+`; the whole string must be consumed.  `datetime(...)` additionally
validates `1 ≤ year` and the day against the month length.  `\d` and `\w`
are modelled over ASCII (plus, for `\w`, all non-ASCII non-whitespace
characters — adequate for the Portuguese month names); `str.lower()` is
modelled over ASCII plus `'Ç'`, the only non-ASCII letter in the month
table.  `strftime('%Y-%m-%d')` renders the year unpadded (glibc `%Y`) —
years parsed here are at most 9999, months at most 12 and days at most 99,
so the fixed-width renderings below agree with Python's on all reachable
values.
-/

/-- ASCII digit (`\d` on the inputs the parsers see). -/
def isDig (c : Char) : Bool :=
  decide (48 ≤ c.toNat) && decide (c.toNat ≤ 57)

/-- Numeric value of an ASCII digit. -/
def digitVal (c : Char) : Nat := c.toNat - 48

/-- `%Y`: exactly four digits. -/
def parseY4 : List Char → Option (Nat × List Char)
  | a :: b :: c :: d :: rest =>
    if isDig a && isDig b && isDig c && isDig d then
      some (digitVal a * 1000 + digitVal b * 100 + digitVal c * 10 + digitVal d, rest)
    else none
  | _ => none

/-- `%m`: `1[0-2] | 0[1-9] | [1-9]` (alternatives in regex order). -/
def parseMonth : List Char → Option (Nat × List Char)
  | a :: b :: rest =>
    if a = '1' && decide (48 ≤ b.toNat) && decide (b.toNat ≤ 50) then
      some (10 + digitVal b, rest)
    else if a = '0' && decide (49 ≤ b.toNat) && decide (b.toNat ≤ 57) then
      some (digitVal b, rest)
    else if decide (49 ≤ a.toNat) && decide (a.toNat ≤ 57) then
      some (digitVal a, b :: rest)
    else none
  | [a] =>
    if decide (49 ≤ a.toNat) && decide (a.toNat ≤ 57) then some (digitVal a, [])
    else none
  | [] => none

/-- `%d`: `3[01] | [12]\d | 0[1-9] | [1-9]`. -/
def parseDay : List Char → Option (Nat × List Char)
  | a :: b :: rest =>
    if a = '3' && decide (48 ≤ b.toNat) && decide (b.toNat ≤ 49) then
      some (30 + digitVal b, rest)
    else if (decide (49 ≤ a.toNat) && decide (a.toNat ≤ 50)) && isDig b then
      some (digitVal a * 10 + digitVal b, rest)
    else if a = '0' && decide (49 ≤ b.toNat) && decide (b.toNat ≤ 57) then
      some (digitVal b, rest)
    else if decide (49 ≤ a.toNat) && decide (a.toNat ≤ 57) then
      some (digitVal a, b :: rest)
    else none
  | [a] =>
    if decide (49 ≤ a.toNat) && decide (a.toNat ≤ 57) then some (digitVal a, [])
    else none
  | [] => none

/-- `%H`: `2[0-3] | [0-1]\d | \d`. -/
def parseHour : List Char → Option (Nat × List Char)
  | a :: b :: rest =>
    if a = '2' && decide (48 ≤ b.toNat) && decide (b.toNat ≤ 51) then
      some (20 + digitVal b, rest)
    else if (decide (48 ≤ a.toNat) && decide (a.toNat ≤ 49)) && isDig b then
      some (digitVal a * 10 + digitVal b, rest)
    else if isDig a then some (digitVal a, b :: rest)
    else none
  | [a] => if isDig a then some (digitVal a, []) else none
  | [] => none

/-- `%M` and `%S`: `[0-5]\d | \d`. -/
def parseMinSec : List Char → Option (Nat × List Char)
  | a :: b :: rest =>
    if (decide (48 ≤ a.toNat) && decide (a.toNat ≤ 53)) && isDig b then
      some (digitVal a * 10 + digitVal b, rest)
    else if isDig a then some (digitVal a, b :: rest)
    else none
  | [a] => if isDig a then some (digitVal a, []) else none
  | [] => none

/-- An exact literal character of the format. -/
def parseLit (c : Char) : List Char → Option (List Char)
  | x :: rest => if x = c then some rest else none
  | [] => none

/-- A literal letter, case-insensitively (the `IGNORECASE` compilation). -/
def parseLitCI (c lower : Char) : List Char → Option (List Char)
  | x :: rest => if x = c ∨ x = lower then some rest else none
  | [] => none

/-- A whitespace character of the format: matches `\s+` (one or more). -/
def parseWs : List Char → Option (List Char)
  | x :: rest => if pyIsSpace x then some (rest.dropWhile pyIsSpace) else none
  | [] => none

/-- Gregorian leap year, as `datetime` checks it. -/
def isLeap (y : Nat) : Bool :=
  (y % 4 == 0 && y % 100 != 0) || y % 400 == 0

/-- Days in a month. -/
def daysInMonth (y m : Nat) : Nat :=
  if m = 2 then (if isLeap y then 29 else 28)
  else if m = 4 ∨ m = 6 ∨ m = 9 ∨ m = 11 then 30
  else 31

/-- The validation `datetime(year, month, day, ...)` performs beyond the
regex ranges: `MINYEAR ≤ year` and the day fits the month (regexes already
guarantee `day ≥ 1`, `1 ≤ month ≤ 12`, `year ≤ 9999`). -/
def validDate (y m d : Nat) : Bool :=
  decide (1 ≤ y) && decide (d ≤ daysInMonth y m)

/-- `'%Y-%m-%dT%H:%M:%S'`. -/
def parseFmt1 (l : List Char) : Option (Nat × Nat × Nat) := do
  let (y, l) ← parseY4 l
  let l ← parseLit '-' l
  let (m, l) ← parseMonth l
  let l ← parseLit '-' l
  let (d, l) ← parseDay l
  let l ← parseLitCI 'T' 't' l
  let (_, l) ← parseHour l
  let l ← parseLit ':' l
  let (_, l) ← parseMinSec l
  let l ← parseLit ':' l
  let (_, l) ← parseMinSec l
  if l = [] then some (y, m, d) else none

/-- `'%Y-%m-%dT%H:%M:%SZ'`. -/
def parseFmt2 (l : List Char) : Option (Nat × Nat × Nat) := do
  let (y, l) ← parseY4 l
  let l ← parseLit '-' l
  let (m, l) ← parseMonth l
  let l ← parseLit '-' l
  let (d, l) ← parseDay l
  let l ← parseLitCI 'T' 't' l
  let (_, l) ← parseHour l
  let l ← parseLit ':' l
  let (_, l) ← parseMinSec l
  let l ← parseLit ':' l
  let (_, l) ← parseMinSec l
  let l ← parseLitCI 'Z' 'z' l
  if l = [] then some (y, m, d) else none

/-- `'%Y-%m-%d %H:%M:%S'`. -/
def parseFmt3 (l : List Char) : Option (Nat × Nat × Nat) := do
  let (y, l) ← parseY4 l
  let l ← parseLit '-' l
  let (m, l) ← parseMonth l
  let l ← parseLit '-' l
  let (d, l) ← parseDay l
  let l ← parseWs l
  let (_, l) ← parseHour l
  let l ← parseLit ':' l
  let (_, l) ← parseMinSec l
  let l ← parseLit ':' l
  let (_, l) ← parseMinSec l
  if l = [] then some (y, m, d) else none

/-- `'%d/%m/%Y'`. -/
def parseFmt4 (l : List Char) : Option (Nat × Nat × Nat) := do
  let (d, l) ← parseDay l
  let l ← parseLit '/' l
  let (m, l) ← parseMonth l
  let l ← parseLit '/' l
  let (y, l) ← parseY4 l
  if l = [] then some (y, m, d) else none

/-- `'%d/%m/%Y %H:%M'`. -/
def parseFmt5 (l : List Char) : Option (Nat × Nat × Nat) := do
  let (d, l) ← parseDay l
  let l ← parseLit '/' l
  let (m, l) ← parseMonth l
  let l ← parseLit '/' l
  let (y, l) ← parseY4 l
  let l ← parseWs l
  let (_, l) ← parseHour l
  let l ← parseLit ':' l
  let (_, l) ← parseMinSec l
  if l = [] then some (y, m, d) else none

/-- `'%Y/%m/%d'`. -/
def parseFmt6 (l : List Char) : Option (Nat × Nat × Nat) := do
  let (y, l) ← parseY4 l
  let l ← parseLit '/' l
  let (m, l) ← parseMonth l
  let l ← parseLit '/' l
  let (d, l) ← parseDay l
  if l = [] then some (y, m, d) else none

/-- One `datetime.strptime(...)` attempt: regex match plus `datetime`
validation; a `ValueError` from either step falls through to the next
format. -/
def tryFmt (p : List Char → Option (Nat × Nat × Nat)) (l : List Char) :
    Option (Nat × Nat × Nat) :=
  match p l with
  | some (y, m, d) => if validDate y m d then some (y, m, d) else none
  | none => none

/-- The format loop, in source order. -/
def tryFormats (l : List Char) : Option (Nat × Nat × Nat) :=
  match tryFmt parseFmt1 l with
  | some r => some r
  | none =>
  match tryFmt parseFmt2 l with
  | some r => some r
  | none =>
  match tryFmt parseFmt3 l with
  | some r => some r
  | none =>
  match tryFmt parseFmt4 l with
  | some r => some r
  | none =>
  match tryFmt parseFmt5 l with
  | some r => some r
  | none => tryFmt parseFmt6 l

/-- `re.match(r'\d{4}-\d{2}-\d{2}', ·)`: a *prefix* test. -/
def isoDateStart : List Char → Bool
  | a :: b :: c :: d :: s1 :: e :: f :: s2 :: g :: h :: _ =>
    isDig a && isDig b && isDig c && isDig d && s1 = '-' &&
    isDig e && isDig f && s2 = '-' && isDig g && isDig h
  | _ => false

/-- Python `\w` (Unicode word character), modelled as ASCII alphanumerics,
underscore, and non-ASCII non-whitespace characters. -/
def pyIsWord (c : Char) : Bool :=
  c.isAlphanum || c = '_' || (decide (128 ≤ c.toNat) && !pyIsSpace c)

/-- `str.lower()`, over ASCII plus `'Ç'` (the month-name alphabet). -/
def pyLower (l : List Char) : List Char :=
  l.map fun c => if c = 'Ç' then 'ç' else c.toLower

/-- `MONTH_MAP_PT` lookup on the lower-cased captured word. -/
def monthMapPT (w : String) : Option Nat :=
  if w = "janeiro" ∨ w = "jan" then some 1
  else if w = "fevereiro" ∨ w = "fev" then some 2
  else if w = "março" ∨ w = "mar" then some 3
  else if w = "abril" ∨ w = "abr" then some 4
  else if w = "maio" ∨ w = "mai" then some 5
  else if w = "junho" ∨ w = "jun" then some 6
  else if w = "julho" ∨ w = "jul" then some 7
  else if w = "agosto" ∨ w = "ago" then some 8
  else if w = "setembro" ∨ w = "set" then some 9
  else if w = "outubro" ∨ w = "out" then some 10
  else if w = "novembro" ∨ w = "nov" then some 11
  else if w = "dezembro" ∨ w = "dez" then some 12
  else none

/-- `\d{1,2}` (greedy; the following `\s+` makes backtracking moot). -/
def takeDigits2 : List Char → Option (Nat × List Char)
  | a :: b :: rest =>
    if isDig a then
      if isDig b then some (digitVal a * 10 + digitVal b, rest)
      else some (digitVal a, b :: rest)
    else none
  | [a] => if isDig a then some (digitVal a, []) else none
  | [] => none

/-- Literal `de`, case-insensitively. -/
def parseDE : List Char → Option (List Char)
  | a :: b :: rest =>
    if (a = 'd' ∨ a = 'D') ∧ (b = 'e' ∨ b = 'E') then some rest else none
  | _ => none

/-- `(\w+)` (greedy, must be non-empty). -/
def parseWord (l : List Char) : Option (List Char × List Char) :=
  let w := l.takeWhile pyIsWord
  if w = [] then none else some (w, l.dropWhile pyIsWord)

/-- The Portuguese pattern matched at the current position. -/
def matchPTAt (l : List Char) : Option (Nat × List Char × Nat) := do
  let (day, l) ← takeDigits2 l
  let l ← parseWs l
  let l ← parseDE l
  let l ← parseWs l
  let (w, l) ← parseWord l
  let l ← parseWs l
  let l ← parseDE l
  let l ← parseWs l
  let (y, _) ← parseY4 l
  some (day, w, y)

/-- `re.search`: try every start position, leftmost first. -/
def searchPT : List Char → Option (Nat × List Char × Nat)
  | [] => none
  | c :: rest =>
    match matchPTAt (c :: rest) with
    | some r => some r
    | none => searchPT rest

/-- Two-digit zero-padded rendering (`{n:02d}`; all call sites pass
`n ≤ 99`). -/
def pad2 (n : Nat) : List Char :=
  [Nat.digitChar (n / 10 % 10), Nat.digitChar (n % 10)]

/-- Four-digit zero-padded rendering (`{y:04d}`; call sites pass
`y ≤ 9999`). -/
def pad4 (y : Nat) : List Char :=
  [Nat.digitChar (y / 1000 % 10), Nat.digitChar (y / 100 % 10),
   Nat.digitChar (y / 10 % 10), Nat.digitChar (y % 10)]

/-- Unpadded decimal year (glibc `strftime('%Y')`; call sites pass
`y ≤ 9999`). -/
def yearUnpadded (y : Nat) : List Char :=
  if y < 10 then [Nat.digitChar y]
  else if y < 100 then [Nat.digitChar (y / 10), Nat.digitChar (y % 10)]
  else if y < 1000 then
    [Nat.digitChar (y / 100), Nat.digitChar (y / 10 % 10), Nat.digitChar (y % 10)]
  else pad4 y

/-- `dt.strftime('%Y-%m-%d')`. -/
def renderYmd (y m d : Nat) : List Char :=
  yearUnpadded y ++ '-' :: (pad2 m ++ '-' :: pad2 d)

/-- The Portuguese branch's `f"{year:04d}-{month:02d}-{day:02d}"`. -/
def renderYmdPadded (y m d : Nat) : List Char :=
  pad4 y ++ '-' :: (pad2 m ++ '-' :: pad2 d)

/-- `DateNormalizer.normalize`. -/
def normalize (s : String) : Option String :=
  if s = "" then none
  else
    let t := pyStripL s.data
    if isoDateStart t then some (String.mk t)
    else
      match tryFormats t with
      | some (y, m, d) => some (String.mk (renderYmd y m d))
      | none =>
        match searchPT t with
        | some (day, w, y) =>
          match monthMapPT (String.mk (pyLower w)) with
          | some m => some (String.mk (renderYmdPadded y m day))
          | none => none
        | none => none

/-- Claim C5 counterexample: an ISO *date-time* already starts with
`\d{4}-\d{2}-\d{2}`, so `re.match` fires and the string is returned
unchanged, time part included — not reduced to a bare `YYYY-MM-DD`. -/
theorem normalize_keeps_iso_datetime :
    normalize "2024-01-02T10:30:00" = some "2024-01-02T10:30:00" ∧
    ("2024-01-02T10:30:00" : String) ≠ "2024-01-02" := by
  refine ⟨by decide, by decide⟩

/-- Dash-separated numeric date shape: 1–4 digits, `-`, 2 digits, `-`,
2 digits. -/
def isCanonicalYmd (l : List Char) : Bool :=
  let ys := l.takeWhile isDig
  decide (1 ≤ ys.length) && decide (ys.length ≤ 4) &&
  match l.dropWhile isDig with
  | '-' :: a :: b :: '-' :: c :: d :: [] => isDig a && isDig b && isDig c && isDig d
  | _ => false

theorem isDig_digitChar_of_lt {n : Nat} (h : n < 10) :
    isDig (Nat.digitChar n) = true := by
  interval_cases n <;> decide

theorem isDig_digitChar_mod (n : Nat) : isDig (Nat.digitChar (n % 10)) = true :=
  isDig_digitChar_of_lt (Nat.mod_lt n (by norm_num))

theorem takeWhile_digits_append {xs : List Char} {y : Char} {t : List Char}
    (hxs : ∀ x ∈ xs, isDig x = true) (hy : isDig y = false) :
    (xs ++ y :: t).takeWhile isDig = xs ∧ (xs ++ y :: t).dropWhile isDig = y :: t := by
  induction xs with
  | nil => simp [List.takeWhile, List.dropWhile, hy]
  | cons x xs ih =>
    have hx : isDig x = true := hxs x (List.mem_cons_self x xs)
    obtain ⟨h1, h2⟩ := ih fun z hz => hxs z (List.mem_cons_of_mem _ hz)
    constructor
    · simp only [List.cons_append, List.takeWhile_cons, hx, if_true, h1]
    · simp only [List.cons_append, List.dropWhile_cons, hx, if_true, h2]

theorem mem_pad2_isDig (n : Nat) : ∀ c ∈ pad2 n, isDig c = true := by
  simp [pad2, isDig_digitChar_mod]

theorem mem_yearUnpadded_isDig (y : Nat) : ∀ c ∈ yearUnpadded y, isDig c = true := by
  unfold yearUnpadded pad4
  split_ifs with h1 h2 h3
  · simp [isDig_digitChar_of_lt h1]
  · simp [isDig_digitChar_of_lt (show y / 10 < 10 by omega), isDig_digitChar_mod]
  · simp [isDig_digitChar_of_lt (show y / 100 < 10 by omega), isDig_digitChar_mod]
  · simp [isDig_digitChar_mod]

theorem yearUnpadded_length (y : Nat) :
    1 ≤ (yearUnpadded y).length ∧ (yearUnpadded y).length ≤ 4 := by
  unfold yearUnpadded pad4
  split_ifs <;> simp

theorem isCanonicalYmd_render {ys : List Char} (m d : Nat)
    (hys : ∀ c ∈ ys, isDig c = true) (h1 : 1 ≤ ys.length) (h4 : ys.length ≤ 4) :
    isCanonicalYmd (ys ++ '-' :: (pad2 m ++ '-' :: pad2 d)) = true := by
  obtain ⟨ht, hd⟩ := takeWhile_digits_append hys (by decide : isDig '-' = false)
    (t := pad2 m ++ '-' :: pad2 d)
  unfold isCanonicalYmd
  rw [ht, hd]
  simp only [pad2, List.cons_append, List.nil_append]
  simp [h1, h4, isDig_digitChar_mod]

theorem isCanonicalYmd_renderYmd (y m d : Nat) :
    isCanonicalYmd (renderYmd y m d) = true :=
  isCanonicalYmd_render m d (mem_yearUnpadded_isDig y)
    (yearUnpadded_length y).1 (yearUnpadded_length y).2

theorem isCanonicalYmd_renderYmdPadded (y m d : Nat) :
    isCanonicalYmd (renderYmdPadded y m d) = true := by
  refine isCanonicalYmd_render m d ?_ (by simp [pad4]) (by simp [pad4])
  simp [pad4, isDig_digitChar_mod]

/-- Claim C5 (amended): `normalize` is total (never raises) and returns
either `None`, or — when the stripped input already starts with
`\d{4}-\d{2}-\d{2}` — the stripped input unchanged (so ISO date-times keep
their time suffix), or a dash-separated `year-MM-DD` string produced from
one of the recognised formats. -/
theorem normalize_shape (s : String) :
    normalize s = none ∨
    (isoDateStart (pyStripL s.data) = true ∧
      normalize s = some (String.mk (pyStripL s.data))) ∨
    (∃ t, normalize s = some t ∧ isCanonicalYmd t.data = true) := by
  unfold normalize
  by_cases hs : s = ""
  · rw [if_pos hs]
    left
    rfl
  · rw [if_neg hs]
    by_cases hiso : isoDateStart (pyStripL s.data) = true
    · rw [if_pos hiso]
      right; left
      exact ⟨hiso, rfl⟩
    · rw [if_neg hiso]
      cases htf : tryFormats (pyStripL s.data) with
      | some ymd =>
        obtain ⟨y, m, d⟩ := ymd
        simp only [htf]
        right; right
        exact ⟨_, rfl, isCanonicalYmd_renderYmd y m d⟩
      | none =>
        simp only [htf]
        cases hpt : searchPT (pyStripL s.data) with
        | none =>
          simp only [hpt]
          left
          trivial
        | some r =>
          obtain ⟨day, w, y⟩ := r
          simp only [hpt]
          cases hml : monthMapPT (String.mk (pyLower w)) with
          | none =>
            simp only [hml]
            left
            trivial
          | some m =>
            simp only [hml]
            right; right
            exact ⟨_, rfl, isCanonicalYmd_renderYmdPadded y m day⟩

end NewsScraper
